import Mathlib

/-!
Shallow embedding of the dnote CLI sync engine (cmd/sync/sync.go).

The local SQLite store is modelled as in-memory lists of rows plus the two
scalar system values driving the protocol (`last_sync_at`, `last_max_usn`).
Go `int`/`int64` values are modelled as `Int` (no claim depends on 64-bit
overflow).  The HTTP client, the AEAD decryption routine and the migration
engine are external collaborators and are modelled as oracle functions
carried in an environment record.  SQL transactions are modelled by
explicit state passing: all mutations act on a transaction copy of the
store, and only a successful run commits it; every error path of the Go
code calls rollback (or exits without committing), which the model captures
by returning the pre-transaction store.  Go wraps error messages with
context strings; the model propagates error values unchanged, which is
irrelevant to the properties proved here.

Unbounded Go loops (the sync-fragment paging loop, the label-collision
counter loop) are modelled with explicit fuel; fuel exhaustion models
divergence and is reported as a distinguished outcome that no successful
run exhibits.
-/

/-- A row of the `books` table: uuid, label, usn, dirty, deleted. -/
structure Book where
  uuid : String
  label : String
  usn : Int
  dirty : Bool
  deleted : Bool
deriving DecidableEq, Repr

/-- A row of the `notes` table. -/
structure Note where
  uuid : String
  bookUuid : String
  body : String
  addedOn : Int
  editedOn : Int
  public : Bool
  usn : Int
  dirty : Bool
  deleted : Bool
deriving DecidableEq, Repr

/-- The local store visible to one sync transaction: the two tables plus the
`system` keys `last_sync_at` and `last_max_usn`. -/
structure DB where
  books : List Book
  notes : List Note
  lastSyncAt : Int
  lastMaxUSN : Int
deriving DecidableEq, Repr

/-- Wire view of a note inside a sync fragment (client.SyncFragNote). -/
structure SyncFragNote where
  uuid : String
  bookUuid : String
  body : String
  addedOn : Int
  editedOn : Int
  public : Bool
  usn : Int
  deleted : Bool
deriving DecidableEq, Repr

/-- Wire view of a book inside a sync fragment (client.SyncFragBook). -/
structure SyncFragBook where
  uuid : String
  label : String
  usn : Int
  deleted : Bool
deriving DecidableEq, Repr

/-- One page of the server delta (client.SyncFragment). -/
structure SyncFragment where
  notes : List SyncFragNote
  books : List SyncFragBook
  expungedNotes : List String
  expungedBooks : List String
  fragMaxUSN : Int
  currentTime : Int
deriving DecidableEq, Repr

/-- Server sync state (client.GetSyncState response). -/
structure SyncState where
  maxUSN : Int
  fullSyncBefore : Int
  currentTime : Int
deriving DecidableEq, Repr

/-- syncList: aggregation of resources in the sync fragments (sync.go:64). -/
structure SyncList where
  notes : List SyncFragNote
  books : List SyncFragBook
  expungedNotes : List String
  expungedBooks : List String
  maxUSN : Int
  maxCurrentTime : Int
deriving DecidableEq, Repr

/-- Server response for book create/update/delete (resp.Book). -/
structure BookResp where
  uuid : String
  usn : Int
deriving DecidableEq, Repr

/-- Server response for note create/update/delete (resp.Result). -/
structure NoteResp where
  uuid : String
  usn : Int
deriving DecidableEq, Repr

/-- Oracle for the blocking HTTP client (the dnote server). -/
structure ServerEnv where
  getSyncState : Except String SyncState
  getSyncFragment : Int → Except String SyncFragment
  createBook : String → Except String BookResp
  updateBook : String → String → Except String BookResp
  deleteBook : String → Except String BookResp
  createNote : String → String → Except String NoteResp
  updateNote : String → String → String → Bool → Except String NoteResp
  deleteNote : String → Except String NoteResp

/-- The command environment: credentials, the `--full` flag, the AEAD
decryption oracle (cipher key baked in), the server, the migration engine
(`migrate.Run` with the remote sequence, which runs before the sync
transaction and commits in its own transactions), and paging fuel. -/
structure Env where
  sessionKey : String
  hasCipherKey : Bool
  isFullSync : Bool
  decrypt : String → Except String String
  server : ServerEnv
  migrateRun : DB → DB × Option String
  fuel : Nat

/-- Phases of one sync run, recorded for observability of the orchestrator. -/
inductive SyncEvent where
  | pullFull : SyncEvent
  | pullStep : Int → SyncEvent
  | push : SyncEvent
deriving DecidableEq, Repr

/-- getLastSyncAt (sync.go:43): read system key `last_sync_at`. -/
def getLastSyncAt (db : DB) : Int := db.lastSyncAt

/-- getLastMaxUSN (sync.go:53): read system key `last_max_usn`. -/
def getLastMaxUSN (db : DB) : Int := db.lastMaxUSN

/-- updateLastMaxUSN (sync.go:851): write system key `last_max_usn`. -/
def updateLastMaxUSN (db : DB) (val : Int) : DB := { db with lastMaxUSN := val }

/-- updateLastSyncAt (sync.go:859): write system key `last_sync_at`. -/
def updateLastSyncAt (db : DB) (val : Int) : DB := { db with lastSyncAt := val }

/-- saveSyncState (sync.go:867): persist server max USN then server time. -/
def saveSyncState (db : DB) (serverTime : Int) (serverMaxUSN : Int) : DB :=
  updateLastSyncAt (updateLastMaxUSN db serverMaxUSN) serverTime

/-- Insert into the aggregate note map keyed by uuid; later fragments
overwrite earlier entries with the same uuid (sync.go:96). -/
def upsertFragNote (acc : List SyncFragNote) (n : SyncFragNote) : List SyncFragNote :=
  if acc.any (fun m => m.uuid == n.uuid) then
    acc.map (fun m => if m.uuid == n.uuid then n else m)
  else
    acc ++ [n]

/-- Insert into the aggregate book map keyed by uuid (sync.go:106). -/
def upsertFragBook (acc : List SyncFragBook) (b : SyncFragBook) : List SyncFragBook :=
  if acc.any (fun m => m.uuid == b.uuid) then
    acc.map (fun m => if m.uuid == b.uuid then b else m)
  else
    acc ++ [b]

/-- Insert a uuid into an expunged set (Go map-of-bool; sync.go:109,112). -/
def insertUuid (acc : List String) (u : String) : List String :=
  if acc.contains u then acc else acc ++ [u]

/-- Decrypt and fold the notes of one fragment (sync.go:88-97). -/
def processFragNotes (decrypt : String → Except String String) :
    List SyncFragNote → List SyncFragNote → Except String (List SyncFragNote)
  | acc, [] => Except.ok acc
  | acc, n :: rest =>
    match decrypt n.body with
    | Except.error e => Except.error e
    | Except.ok bodyDec =>
      processFragNotes decrypt (upsertFragNote acc { n with body := bodyDec }) rest

/-- Decrypt and fold the books of one fragment (sync.go:98-107). -/
def processFragBooks (decrypt : String → Except String String) :
    List SyncFragBook → List SyncFragBook → Except String (List SyncFragBook)
  | acc, [] => Except.ok acc
  | acc, b :: rest =>
    match decrypt b.label with
    | Except.error e => Except.error e
    | Except.ok labelDec =>
      processFragBooks decrypt (upsertFragBook acc { b with label := labelDec }) rest

/-- One iteration of the fragment-categorisation loop (sync.go:87-121):
fold the fragment's notes, books and expunged uuids into the accumulated
sync list, then raise the running MaxUSN / MaxCurrentTime. -/
def processOneFragment (decrypt : String → Except String String)
    (acc : SyncList) (frag : SyncFragment) : Except String SyncList :=
  match processFragNotes decrypt acc.notes frag.notes with
  | Except.error e => Except.error e
  | Except.ok notes1 =>
    match processFragBooks decrypt acc.books frag.books with
    | Except.error e => Except.error e
    | Except.ok books1 =>
      let eb := frag.expungedBooks.foldl insertUuid acc.expungedBooks
      let en := frag.expungedNotes.foldl insertUuid acc.expungedNotes
      Except.ok
        { notes := notes1
          books := books1
          expungedNotes := en
          expungedBooks := eb
          maxUSN := if frag.fragMaxUSN > acc.maxUSN then frag.fragMaxUSN else acc.maxUSN
          maxCurrentTime :=
            if frag.currentTime > acc.maxCurrentTime then frag.currentTime
            else acc.maxCurrentTime }

/-- The empty sync list (zero-valued accumulators of processFragments). -/
def emptySyncList : SyncList :=
  { notes := [], books := [], expungedNotes := [], expungedBooks := []
    maxUSN := 0, maxCurrentTime := 0 }

/-- Loop of processFragments over the buffered fragments. -/
def processFragmentsLoop (decrypt : String → Except String String) :
    SyncList → List SyncFragment → Except String SyncList
  | acc, [] => Except.ok acc
  | acc, frag :: rest =>
    match processOneFragment decrypt acc frag with
    | Except.error e => Except.error e
    | Except.ok acc1 => processFragmentsLoop decrypt acc1 rest

/-- processFragments (sync.go:79): categorise items in sync fragments into a
sync list, decrypting note bodies and book labels. -/
def processFragments (decrypt : String → Except String String)
    (fragments : List SyncFragment) : Except String SyncList :=
  processFragmentsLoop decrypt emptySyncList fragments

/-- getLength (sync.go:73): total number of aggregated resources. -/
def SyncList.getLength (l : SyncList) : Nat :=
  l.notes.length + l.books.length + l.expungedNotes.length + l.expungedBooks.length

/-- getSyncFragments paging loop (sync.go:158-173): request the fragment
after `afterUSN`, buffer it, and continue from its FragMaxUSN until a
fragment reports FragMaxUSN == 0.  `none` models fuel exhaustion, i.e. a
server that never reports the terminating sentinel. -/
def getSyncFragmentsLoop (server : Int → Except String SyncFragment) :
    Nat → Int → Option (Except String (List SyncFragment))
  | 0, _ => none
  | fuel + 1, afterUSN =>
    match server afterUSN with
    | Except.error e => some (Except.error e)
    | Except.ok frag =>
      if frag.fragMaxUSN = 0 then some (Except.ok [frag])
      else
        match getSyncFragmentsLoop server fuel frag.fragMaxUSN with
        | none => none
        | some (Except.error e) => some (Except.error e)
        | some (Except.ok rest) => some (Except.ok (frag :: rest))

/-- getSyncList (sync.go:137): page in all fragments after `afterUSN` and
aggregate them into a syncList. -/
def getSyncList (env : Env) (afterUSN : Int) : Except String SyncList :=
  match getSyncFragmentsLoop env.server.getSyncFragment env.fuel afterUSN with
  | none => Except.error "sync fragment paging did not terminate"
  | some (Except.error e) => Except.error e
  | some (Except.ok fragments) => processFragments env.decrypt fragments

/-- The label candidate built by fmt.Sprintf("%s (%d)", label, i) (sync.go:186). -/
def mkSuffixed (label : String) (i : Int) : String :=
  label ++ " (" ++ toString i ++ ")"

/-- Loop of resolveLabel (sync.go:185-196): try "label (i)" for i = 2, 3, ...
until `SELECT count(*) FROM books WHERE label = ?` is zero.  Note the count
ranges over every row of `books`, deleted rows included.  Fuel models the
unbounded Go counter loop. -/
def resolveLabelLoop (books : List Book) (label : String) : Int → Nat → Option String
  | _, 0 => none
  | i, fuel + 1 =>
    let ret := mkSuffixed label i
    if books.countP (fun b => b.label == ret) = 0 then some ret
    else resolveLabelLoop books label (i + 1) fuel

/-- resolveLabel (sync.go:182): first non-conflicting candidate starting at
i = 2.  `books.length + 1` candidates always suffice, so the fuel bound is
never the deciding factor on terminating runs. -/
def resolveLabel (books : List Book) (label : String) : Option String :=
  resolveLabelLoop books label 2 (books.length + 1)

/-- Rename step of mergeBook (sync.go:216): UPDATE books SET label = new,
dirty = true WHERE label = old. -/
def renameDup (books : List Book) (oldLabel newLabel : String) : List Book :=
  books.map (fun r =>
    if r.label == oldLabel then { r with label := newLabel, dirty := true } else r)

/-- Merge modes (sync.go:17-20). -/
def modeInsert : Nat := 0

/-- Merge modes (sync.go:17-20). -/
def modeUpdate : Nat := 1

/-- First row of `SELECT ... FROM books WHERE uuid = ?`. -/
def findBook (db : DB) (uuid : String) : Option Book :=
  db.books.find? (fun r => r.uuid == uuid)

/-- First row of `SELECT ... FROM notes WHERE uuid = ?`. -/
def findNote (db : DB) (uuid : String) : Option Note :=
  db.notes.find? (fun m => m.uuid == uuid)

/-- First half of mergeBook (sync.go:204-219): if any local book holds the
incoming label, rename every such row via resolveLabel and mark it dirty. -/
def resolveDup (db : DB) (b : SyncFragBook) : Except String DB :=
  if db.books.countP (fun r => r.label == b.label) > 0 then
    match resolveLabel db.books b.label with
    | none => Except.error "resolving duplicate book label: no candidate"
    | some newLabel =>
      Except.ok { db with books := renameDup db.books b.label newLabel }
  else Except.ok db

/-- mergeBook (sync.go:203): resolve any label collision, then insert
(modeInsert) the server book as a clean row, or (modeUpdate) overwrite usn,
uuid, label, deleted of the row with the server book's uuid. -/
def mergeBook (db : DB) (b : SyncFragBook) (mode : Nat) : Except String DB :=
  match resolveDup db b with
  | Except.error e => Except.error e
  | Except.ok db1 =>
    if mode = modeInsert then
      -- core.NewBook(b.UUID, b.Label, b.USN, false, false): clean, live row.
      Except.ok { db1 with books :=
        db1.books ++ [{ uuid := b.uuid, label := b.label, usn := b.usn
                        dirty := false, deleted := false }] }
    else if mode = modeUpdate then
      Except.ok { db1 with books := db1.books.map (fun r =>
        if r.uuid == b.uuid then
          { r with usn := b.usn, uuid := b.uuid, label := b.label, deleted := b.deleted }
        else r) }
    else Except.ok db1

/-- stepSyncBook (sync.go:237): insert path on absence, update path otherwise. -/
def stepSyncBook (db : DB) (b : SyncFragBook) : Except String DB :=
  match findBook db b.uuid with
  | none => mergeBook db b modeInsert
  | some _ => mergeBook db b modeUpdate

/-- The SET clause shared by both UPDATE statements of mergeNote
(sync.go:275 and 284): overwrite usn, book_uuid, body, edited_on, deleted,
public from the server row; uuid, added_on and (here) dirty are not in the
SET list. -/
def overwriteFromServer (s : SyncFragNote) (m : Note) : Note :=
  { m with usn := s.usn, bookUuid := s.bookUuid, body := s.body
           editedOn := s.editedOn, deleted := s.deleted, public := s.public }

/-- mergeNote (sync.go:261): look up the owning local book (a missing row is
an error); if the book is deleted, noop; if the local note is deleted,
overwrite the six server columns and clear dirty; otherwise overwrite the
six server columns, leaving dirty untouched. -/
def mergeNote (db : DB) (serverNote : SyncFragNote) (localNote : Note) : Except String DB :=
  match findBook db localNote.bookUuid with
  | none => Except.error ("checking if local book " ++ localNote.bookUuid ++ " is deleted")
  | some book =>
    if book.deleted then Except.ok db
    else if localNote.deleted then
      Except.ok { db with notes := db.notes.map (fun m =>
        if m.uuid == serverNote.uuid then
          { overwriteFromServer serverNote m with dirty := false }
        else m) }
    else
      Except.ok { db with notes := db.notes.map (fun m =>
        if m.uuid == serverNote.uuid then overwriteFromServer serverNote m
        else m) }

/-- Row built by core.NewNote(n.UUID, n.BookUUID, n.Body, n.AddedOn,
n.EditedOn, n.USN, n.Public, n.Deleted, false): a clean local copy. -/
def noteFromServer (n : SyncFragNote) : Note :=
  { uuid := n.uuid, bookUuid := n.bookUuid, body := n.body, addedOn := n.addedOn
    editedOn := n.editedOn, public := n.public, usn := n.usn
    deleted := n.deleted, dirty := false }

/-- stepSyncNote (sync.go:292): insert on absence, else merge. -/
def stepSyncNote (db : DB) (n : SyncFragNote) : Except String DB :=
  match findNote db n.uuid with
  | none => Except.ok { db with notes := db.notes ++ [noteFromServer n] }
  | some localNote => mergeNote db n localNote

/-- fullSyncNote (sync.go:316): insert on absence, merge only if the server
copy's usn is strictly greater than the local usn. -/
def fullSyncNote (db : DB) (n : SyncFragNote) : Except String DB :=
  match findNote db n.uuid with
  | none => Except.ok { db with notes := db.notes ++ [noteFromServer n] }
  | some localNote =>
    if n.usn > localNote.usn then mergeNote db n localNote else Except.ok db

/-- syncDeleteNote (sync.go:340): absent row is a noop; a dirty local copy
is kept; otherwise the row is hard-deleted. -/
def syncDeleteNote (db : DB) (noteUUID : String) : Except String DB :=
  match findNote db noteUUID with
  | none => Except.ok db
  | some localNote =>
    if localNote.dirty then Except.ok db
    else Except.ok { db with notes := db.notes.filter (fun m => !(m.uuid == noteUUID)) }

/-- checkNotesPristine (sync.go:365): no note of the book is dirty. -/
def checkNotesPristine (db : DB) (bookUUID : String) : Bool :=
  if db.notes.countP (fun n => n.bookUuid == bookUUID && n.dirty) > 0 then false
  else true

/-- syncDeleteBook (sync.go:378): absent row is a noop; a dirty local book
is a noop; a book with dirty notes is kept and marked dirty (only the dirty
column changes); otherwise the book's notes are deleted and then the book. -/
def syncDeleteBook (db : DB) (bookUUID : String) : Except String DB :=
  match findBook db bookUUID with
  | none => Except.ok db
  | some localBook =>
    if localBook.dirty then Except.ok db
    else if !(checkNotesPristine db bookUUID) then
      Except.ok { db with books := db.books.map (fun r =>
        if r.uuid == bookUUID then { r with dirty := true } else r) }
    else
      Except.ok { db with
        notes := db.notes.filter (fun m => !(m.bookUuid == bookUUID))
        books := db.books.filter (fun r => !(r.uuid == bookUUID)) }

/-- fullSyncBook (sync.go:424): insert on absence, update only if the server
usn is strictly greater than the local usn. -/
def fullSyncBook (db : DB) (b : SyncFragBook) : Except String DB :=
  match findBook db b.uuid with
  | none => mergeBook db b modeInsert
  | some localBook =>
    if b.usn > localBook.usn then mergeBook db b modeUpdate else Except.ok db

/-- checkNoteInList (sync.go:447): the uuid is in the live or expunged notes. -/
def checkNoteInList (uuid : String) (list : SyncList) : Bool :=
  list.notes.any (fun m => m.uuid == uuid) || list.expungedNotes.contains uuid

/-- checkBookInList (sync.go:460): the uuid is in the live or expunged books. -/
def checkBookInList (uuid : String) (list : SyncList) : Bool :=
  list.books.any (fun m => m.uuid == uuid) || list.expungedBooks.contains uuid

/-- cleanLocalNotes (sync.go:476): expunge every note whose uuid is not in
the full sync list, unless it is a brand-new local row (dirty with usn 0). -/
def cleanLocalNotes (db : DB) (fullList : SyncList) : DB :=
  { db with notes := db.notes.filter (fun n =>
      !(!(checkNoteInList n.uuid fullList) && (!n.dirty || !(n.usn == 0)))) }

/-- cleanLocalBooks (sync.go:502): the book analogue of cleanLocalNotes. -/
def cleanLocalBooks (db : DB) (fullList : SyncList) : DB :=
  { db with books := db.books.filter (fun b =>
      !(!(checkBookInList b.uuid fullList) && (!b.dirty || !(b.usn == 0)))) }

/-- Loop of fullSync over the aggregated notes (sync.go:546-550). -/
def mergeNotesFull : DB → List SyncFragNote → Except String DB
  | db, [] => Except.ok db
  | db, n :: rest =>
    match fullSyncNote db n with
    | Except.error e => Except.error e
    | Except.ok db1 => mergeNotesFull db1 rest

/-- Loop of fullSync over the aggregated books (sync.go:551-555). -/
def mergeBooksFull : DB → List SyncFragBook → Except String DB
  | db, [] => Except.ok db
  | db, b :: rest =>
    match fullSyncBook db b with
    | Except.error e => Except.error e
    | Except.ok db1 => mergeBooksFull db1 rest

/-- Loop of stepSync over the aggregated notes (sync.go:590-594). -/
def mergeNotesStep : DB → List SyncFragNote → Except String DB
  | db, [] => Except.ok db
  | db, n :: rest =>
    match stepSyncNote db n with
    | Except.error e => Except.error e
    | Except.ok db1 => mergeNotesStep db1 rest

/-- Loop of stepSync over the aggregated books (sync.go:595-599). -/
def mergeBooksStep : DB → List SyncFragBook → Except String DB
  | db, [] => Except.ok db
  | db, b :: rest =>
    match stepSyncBook db b with
    | Except.error e => Except.error e
    | Except.ok db1 => mergeBooksStep db1 rest

/-- Loop over the expunged note uuids (sync.go:557-561 and 601-605). -/
def deleteNotesLoop : DB → List String → Except String DB
  | db, [] => Except.ok db
  | db, u :: rest =>
    match syncDeleteNote db u with
    | Except.error e => Except.error e
    | Except.ok db1 => deleteNotesLoop db1 rest

/-- Loop over the expunged book uuids (sync.go:562-566 and 606-610). -/
def deleteBooksLoop : DB → List String → Except String DB
  | db, [] => Except.ok db
  | db, u :: rest =>
    match syncDeleteBook db u with
    | Except.error e => Except.error e
    | Except.ok db1 => deleteBooksLoop db1 rest

/-- fullSync (sync.go:527): pull everything from USN 0, clean orphaned local
rows, merge notes then books, apply server expungements, persist sync state. -/
def fullSync (env : Env) (tx : DB) : Except String DB :=
  match getSyncList env 0 with
  | Except.error e => Except.error e
  | Except.ok list =>
    match mergeNotesFull (cleanLocalBooks (cleanLocalNotes tx list) list) list.notes with
    | Except.error e => Except.error e
    | Except.ok tx3 =>
      match mergeBooksFull tx3 list.books with
      | Except.error e => Except.error e
      | Except.ok tx4 =>
        match deleteNotesLoop tx4 list.expungedNotes with
        | Except.error e => Except.error e
        | Except.ok tx5 =>
          match deleteBooksLoop tx5 list.expungedBooks with
          | Except.error e => Except.error e
          | Except.ok tx6 => Except.ok (saveSyncState tx6 list.maxCurrentTime list.maxUSN)

/-- stepSync (sync.go:578): pull the delta after `afterUSN`, merge notes then
books, apply server expungements, persist sync state. -/
def stepSync (env : Env) (tx : DB) (afterUSN : Int) : Except String DB :=
  match getSyncList env afterUSN with
  | Except.error e => Except.error e
  | Except.ok list =>
    match mergeNotesStep tx list.notes with
    | Except.error e => Except.error e
    | Except.ok tx1 =>
      match mergeBooksStep tx1 list.books with
      | Except.error e => Except.error e
      | Except.ok tx2 =>
        match deleteNotesLoop tx2 list.expungedNotes with
        | Except.error e => Except.error e
        | Except.ok tx3 =>
          match deleteBooksLoop tx3 list.expungedBooks with
          | Except.error e => Except.error e
          | Except.ok tx4 => Except.ok (saveSyncState tx4 list.maxCurrentTime list.maxUSN)

/-- The server-drift check duplicated after each successful book and note
create/update/delete in the push loops (sync.go:706-720 and 806-820): read
last_max_usn; if the response usn is exactly one past it, advance it by one;
otherwise leave it unchanged and report the client as behind. -/
def checkRespUSN (db : DB) (isBehind : Bool) (respUSN : Int) : DB × Bool :=
  let lastMaxUSN := getLastMaxUSN db
  if respUSN = lastMaxUSN + 1 then (updateLastMaxUSN db (lastMaxUSN + 1), isBehind)
  else (db, true)

/-- Book.Expunge: DELETE FROM books WHERE uuid = ?.  Modelled from the spec:
the store-access layer (`core` package, not under src/) hard-deletes the row. -/
def expungeBook (db : DB) (uuid : String) : DB :=
  { db with books := db.books.filter (fun r => !(r.uuid == uuid)) }

/-- Note.Expunge: DELETE FROM notes WHERE uuid = ?.  Modelled from the spec:
the store-access layer (`core` package, not under src/) hard-deletes the row. -/
def expungeNote (db : DB) (uuid : String) : DB :=
  { db with notes := db.notes.filter (fun m => !(m.uuid == uuid)) }

/-- One iteration of the dirty-book push loop (sync.go:631-721).  Modelled
from the spec where it leans on the `core` store-access layer (not under
src/): Book.Update persists the struct's columns for the row with the
book's uuid, Book.UpdateUUID rewrites the uuid column. -/
def sendBookItem (env : Env) (db : DB) (isBehind : Bool) (book : Book) :
    Except String (DB × Bool) :=
  if book.usn = 0 then
    if book.deleted then
      -- never uploaded and already deleted: expunge locally, no drift check
      Except.ok (expungeBook db book.uuid, isBehind)
    else
      match env.server.createBook book.label with
      | Except.error e => Except.error e
      | Except.ok resp =>
        let db1 : DB := { db with notes := db.notes.map (fun m =>
          if m.bookUuid == book.uuid then { m with bookUuid := resp.uuid } else m) }
        let db2 : DB := { db1 with books := db1.books.map (fun r =>
          if r.uuid == book.uuid then { r with dirty := false, usn := resp.usn } else r) }
        let db3 : DB := { db2 with books := db2.books.map (fun r =>
          if r.uuid == book.uuid then { r with uuid := resp.uuid } else r) }
        Except.ok (checkRespUSN db3 isBehind resp.usn)
  else
    if book.deleted then
      match env.server.deleteBook book.uuid with
      | Except.error e => Except.error e
      | Except.ok resp => Except.ok (checkRespUSN (expungeBook db book.uuid) isBehind resp.usn)
    else
      match env.server.updateBook book.label book.uuid with
      | Except.error e => Except.error e
      | Except.ok resp =>
        let db1 : DB := { db with books := db.books.map (fun r =>
          if r.uuid == book.uuid then { r with dirty := false, usn := resp.usn } else r) }
        Except.ok (checkRespUSN db1 isBehind resp.usn)

/-- Fold of the dirty-book push loop over its snapshotted result set. -/
def sendBooksLoop (env : Env) : DB → Bool → List Book → Except String (DB × Bool)
  | db, isBehind, [] => Except.ok (db, isBehind)
  | db, isBehind, b :: rest =>
    match sendBookItem env db isBehind b with
    | Except.error e => Except.error e
    | Except.ok (db1, behind1) => sendBooksLoop env db1 behind1 rest

/-- sendBooks (sync.go:622): push every dirty book. -/
def sendBooks (env : Env) (db : DB) : Except String (DB × Bool) :=
  sendBooksLoop env db false (db.books.filter (fun r => r.dirty))

/-- One iteration of the dirty-note push loop (sync.go:735-821).  Modelled
from the spec where it leans on the `core` store-access layer (not under
src/), as for books. -/
def sendNoteItem (env : Env) (db : DB) (isBehind : Bool) (note : Note) :
    Except String (DB × Bool) :=
  if note.usn = 0 then
    if note.deleted then
      -- added and deleted locally without ever uploading: expunge, no drift check
      Except.ok (expungeNote db note.uuid, isBehind)
    else
      match env.server.createNote note.bookUuid note.body with
      | Except.error e => Except.error e
      | Except.ok resp =>
        let db1 : DB := { db with notes := db.notes.map (fun m =>
          if m.uuid == note.uuid then { m with dirty := false, usn := resp.usn } else m) }
        let db2 : DB := { db1 with notes := db1.notes.map (fun m =>
          if m.uuid == note.uuid then { m with uuid := resp.uuid } else m) }
        Except.ok (checkRespUSN db2 isBehind resp.usn)
  else
    if note.deleted then
      match env.server.deleteNote note.uuid with
      | Except.error e => Except.error e
      | Except.ok resp => Except.ok (checkRespUSN (expungeNote db note.uuid) isBehind resp.usn)
    else
      match env.server.updateNote note.uuid note.bookUuid note.body note.public with
      | Except.error e => Except.error e
      | Except.ok resp =>
        let db1 : DB := { db with notes := db.notes.map (fun m =>
          if m.uuid == note.uuid then { m with dirty := false, usn := resp.usn } else m) }
        Except.ok (checkRespUSN db1 isBehind resp.usn)

/-- Fold of the dirty-note push loop over its snapshotted result set. -/
def sendNotesLoop (env : Env) : DB → Bool → List Note → Except String (DB × Bool)
  | db, isBehind, [] => Except.ok (db, isBehind)
  | db, isBehind, n :: rest =>
    match sendNoteItem env db isBehind n with
    | Except.error e => Except.error e
    | Except.ok (db1, behind1) => sendNotesLoop env db1 behind1 rest

/-- sendNotes (sync.go:726): push every dirty note. -/
def sendNotes (env : Env) (db : DB) : Except String (DB × Bool) :=
  sendNotesLoop env db false (db.notes.filter (fun m => m.dirty))

/-- sendChanges (sync.go:826): push dirty books, then dirty notes; the run
is behind if either scan observed server drift. -/
def sendChanges (env : Env) (db : DB) : Except String (DB × Bool) :=
  match sendBooks env db with
  | Except.error e => Except.error e
  | Except.ok (db1, behind1) =>
    match sendNotes env db1 with
    | Except.error e => Except.error e
    | Except.ok (db2, behind2) => Except.ok (db2, behind1 || behind2)

/-- The pull decision of newRun (sync.go:908-919): full sync when the
operator asked for one or the last sync predates the server's
FullSyncBefore; otherwise incremental after last_max_usn when the server's
MaxUSN differs from it; otherwise no pull, only last_sync_at is refreshed. -/
def pullPhase (env : Env) (st : SyncState) (tx : DB) :
    Except String (DB × List SyncEvent) :=
  if env.isFullSync = true ∨ getLastSyncAt tx < st.fullSyncBefore then
    match fullSync env tx with
    | Except.error e => Except.error e
    | Except.ok d => Except.ok (d, [SyncEvent.pullFull])
  else if getLastMaxUSN tx ≠ st.maxUSN then
    match stepSync env tx (getLastMaxUSN tx) with
    | Except.error e => Except.error e
    | Except.ok d => Except.ok (d, [SyncEvent.pullStep (getLastMaxUSN tx)])
  else
    Except.ok (updateLastSyncAt tx st.currentTime, [])

/-- Body of the sync transaction (sync.go:893-946): query the server sync
state, decide and run the pull phase, push local changes, and when the push
observed drift run one follow-up incremental sync from the advanced
last_max_usn. -/
def newRunTx (env : Env) (tx0 : DB) : Except String (DB × List SyncEvent) :=
  match env.server.getSyncState with
  | Except.error e => Except.error e
  | Except.ok st =>
    match pullPhase env st tx0 with
    | Except.error e => Except.error e
    | Except.ok (tx1, tr1) =>
      match sendChanges env tx1 with
      | Except.error e => Except.error e
      | Except.ok (tx2, isBehind) =>
        if isBehind then
          match stepSync env tx2 (getLastMaxUSN tx2) with
          | Except.error e => Except.error e
          | Except.ok tx3 =>
            Except.ok (tx3, tr1 ++ [SyncEvent.push, SyncEvent.pullStep (getLastMaxUSN tx2)])
        else
          Except.ok (tx2, tr1 ++ [SyncEvent.push])

/-- newRun (sync.go:878): refuse to run without credentials; run the remote
migration sequence (its own transactions, before the sync transaction);
begin the single sync transaction, run `newRunTx` inside it, and commit on
success.  Any error inside the transaction rolls it back, so the store
visible afterwards is the post-migration store; the error is surfaced as
the third component. -/
def newRun (env : Env) (db : DB) : DB × List SyncEvent × Option String :=
  if env.sessionKey == "" || !env.hasCipherKey then (db, [], some "not logged in")
  else
    match env.migrateRun db with
    | (db1, some e) => (db1, [], some e)
    | (db1, none) =>
      match newRunTx env db1 with
      | Except.error e => (db1, [], some e)
      | Except.ok (txFinal, tr) => (txFinal, tr, none)

/-- The shape of a terminating run of the fragment-paging loop: each request
is issued at the previous fragment's FragMaxUSN, every fragment before the
last reports a nonzero FragMaxUSN, and the last reports zero. -/
def fragChain (server : Int → Except String SyncFragment) : Int → List SyncFragment → Prop
  | _, [] => False
  | a, [f] => server a = Except.ok f ∧ f.fragMaxUSN = 0
  | a, f :: g :: rest =>
    server a = Except.ok f ∧ f.fragMaxUSN ≠ 0 ∧ fragChain server f.fragMaxUSN (g :: rest)

/-- A note row in an acceptable post-full-sync state: present in the pulled
sync list (live or expunged) or brand-new local (dirty with usn 0). -/
def goodNote (list : SyncList) (n : Note) : Prop :=
  checkNoteInList n.uuid list = true ∨ (n.dirty = true ∧ n.usn = 0)

/-- A book row in an acceptable post-full-sync state. -/
def goodBook (list : SyncList) (b : Book) : Prop :=
  checkBookInList b.uuid list = true ∨ (b.dirty = true ∧ b.usn = 0)

/-- Every row of the store is in an acceptable post-full-sync state. -/
def goodDB (list : SyncList) (db : DB) : Prop :=
  (∀ n ∈ db.notes, goodNote list n) ∧ (∀ b ∈ db.books, goodBook list b)

/-- A server oracle none of whose endpoints is expected to be called. -/
def serverUnused : ServerEnv :=
  { getSyncState := Except.error "unused"
    getSyncFragment := fun _ => Except.error "unused"
    createBook := fun _ => Except.error "unused"
    updateBook := fun _ _ => Except.error "unused"
    deleteBook := fun _ => Except.error "unused"
    createNote := fun _ _ => Except.error "unused"
    updateNote := fun _ _ _ _ => Except.error "unused"
    deleteNote := fun _ => Except.error "unused" }

/-- Identity decryption oracle (payloads already plaintext). -/
def decryptId : String → Except String String := fun s => Except.ok s

/-- An empty local store. -/
def dbW : DB := { books := [], notes := [], lastSyncAt := 0, lastMaxUSN := 0 }

/-- Environment whose very first server call fails. -/
def envW : Env :=
  { sessionKey := "sess", hasCipherKey := true, isFullSync := false
    decrypt := decryptId
    server := { serverUnused with getSyncState := Except.error "boom" }
    migrateRun := fun d => (d, none), fuel := 2 }

/-- Sync state for the no-pull witness: server MaxUSN equals the client's. -/
def stC2 : SyncState := { maxUSN := 5, fullSyncBefore := 0, currentTime := 77 }

/-- Store already in sync with `stC2` (last_max_usn = 5, recent last_sync_at). -/
def txC2 : DB := { books := [], notes := [], lastSyncAt := 10, lastMaxUSN := 5 }

/-- Dirty local book that will be pushed with an update request. -/
def book3 : Book := { uuid := "b1", label := "js", usn := 5, dirty := true, deleted := false }

/-- An empty sync fragment stamped with server time 100 and FragMaxUSN 0. -/
def frag9 : SyncFragment :=
  { notes := [], books := [], expungedNotes := [], expungedBooks := []
    fragMaxUSN := 0, currentTime := 100 }

/-- Server for the drift scenario: in sync at USN 41, but the book update is
answered with USN 44 (other clients intercalated during the push). -/
def server3 : ServerEnv :=
  { serverUnused with
    getSyncState := Except.ok { maxUSN := 41, fullSyncBefore := 0, currentTime := 100 }
    getSyncFragment := fun _ => Except.ok frag9
    updateBook := fun _ _ => Except.ok { uuid := "b1", usn := 44 } }

/-- Store holding `book3` with last_max_usn 41. -/
def db3 : DB := { books := [book3], notes := [], lastSyncAt := 50, lastMaxUSN := 41 }

/-- Environment for the drift scenario. -/
def env3 : Env :=
  { sessionKey := "s", hasCipherKey := true, isFullSync := false
    decrypt := decryptId, server := server3
    migrateRun := fun d => (d, none), fuel := 2 }

/-- Transaction state after the drift push: the book adopted USN 44 and was
cleaned, but last_max_usn stayed at 41. -/
def tx2C3 : DB :=
  { books := [{ uuid := "b1", label := "js", usn := 44, dirty := false, deleted := false }]
    notes := [], lastSyncAt := 100, lastMaxUSN := 41 }

/-- Books for the label-collision counterexample: the live label "X" plus a
soft-deleted book already holding "X (2)". -/
def booksC4 : List Book :=
  [ { uuid := "u1", label := "X", usn := 1, dirty := false, deleted := false },
    { uuid := "u2", label := "X (2)", usn := 2, dirty := false, deleted := true } ]

/-- Books for the spec's boundary example: live "X", "X (2)", "X (3)". -/
def booksX : List Book :=
  [ { uuid := "u1", label := "X", usn := 1, dirty := false, deleted := false },
    { uuid := "u2", label := "X (2)", usn := 2, dirty := false, deleted := false },
    { uuid := "u3", label := "X (3)", usn := 3, dirty := false, deleted := false } ]

/-- Live local book owning the notes of the mergeNote scenarios. -/
def bookC5 : Book := { uuid := "b1", label := "js", usn := 3, dirty := false, deleted := false }

/-- Local note with added_on 5, not deleted, not dirty. -/
def localC5 : Note :=
  { uuid := "n1", bookUuid := "b1", body := "old", addedOn := 5, editedOn := 6
    public := false, usn := 3, dirty := false, deleted := false }

/-- The server's edit of the same note; its added_on is 9. -/
def serverC5 : SyncFragNote :=
  { uuid := "n1", bookUuid := "b1", body := "new", addedOn := 9, editedOn := 10
    public := true, usn := 7, deleted := false }

/-- Store for the mergeNote counterexample. -/
def dbC5 : DB := { books := [bookC5], notes := [localC5], lastSyncAt := 0, lastMaxUSN := 0 }

/-- Result of merging `serverC5` into `dbC5`: six columns overwritten, but
added_on stays 5 (the local value), not 9 (the server value). -/
def dbC5' : DB :=
  { dbC5 with notes := [{ localC5 with usn := 7, body := "new", editedOn := 10, public := true }] }

/-- Locally deleted (and dirty) variant of the note, for the second branch. -/
def localC5d : Note := { localC5 with deleted := true, dirty := true }

/-- Store holding the locally deleted note. -/
def dbC5d : DB := { books := [bookC5], notes := [localC5d], lastSyncAt := 0, lastMaxUSN := 0 }

/-- Clean local book whose note is dirty (scenario S3). -/
def book6 : Book := { uuid := "b1", label := "js", usn := 4, dirty := false, deleted := false }

/-- Dirty note inside `book6`. -/
def note6 : Note :=
  { uuid := "n1", bookUuid := "b1", body := "t", addedOn := 1, editedOn := 2
    public := false, usn := 2, dirty := true, deleted := false }

/-- Store for the server-deletes-book-with-dirty-notes scenario. -/
def db6 : DB := { books := [book6], notes := [note6], lastSyncAt := 0, lastMaxUSN := 0 }

/-- Server answering every fragment request with a FragMaxUSN = 0 fragment
that nevertheless carries one expunged note uuid. -/
def fragC8 : SyncFragment :=
  { notes := [], books := [], expungedNotes := ["n1"], expungedBooks := []
    fragMaxUSN := 0, currentTime := 7 }

/-- The oracle returning `fragC8` on every request. -/
def serverC8 : Int → Except String SyncFragment := fun _ => Except.ok fragC8

/-- Sync list aggregated from the single fragment `fragC8`: non-empty. -/
def slC8 : SyncList :=
  { notes := [], books := [], expungedNotes := ["n1"], expungedBooks := []
    maxUSN := 0, maxCurrentTime := 7 }

/-- A genuinely empty first fragment. -/
def fragC8e : SyncFragment :=
  { notes := [], books := [], expungedNotes := [], expungedBooks := []
    fragMaxUSN := 0, currentTime := 7 }

/-- The oracle returning the empty fragment on every request. -/
def serverC8e : Int → Except String SyncFragment := fun _ => Except.ok fragC8e

/-- Sync list aggregated from the single empty fragment. -/
def slC8e : SyncList :=
  { notes := [], books := [], expungedNotes := [], expungedBooks := []
    maxUSN := 0, maxCurrentTime := 7 }

/-- Server whose full-sync stream is empty while its sync state forces a
full sync: GetSyncState reports MaxUSN 41, the fragment stream reports 0. -/
def server9 : ServerEnv :=
  { serverUnused with
    getSyncState := Except.ok { maxUSN := 41, fullSyncBefore := 0, currentTime := 100 }
    getSyncFragment := fun _ => Except.ok frag9 }

/-- Environment forcing a full sync against `server9`. -/
def env9 : Env :=
  { sessionKey := "s", hasCipherKey := true, isFullSync := true
    decrypt := decryptId, server := server9
    migrateRun := fun d => (d, none), fuel := 2 }

/-- Store whose committed last_max_usn is 41 before the sync. -/
def db9 : DB := { books := [], notes := [], lastSyncAt := 50, lastMaxUSN := 41 }

/-- Brand-new local note: dirty with usn 0 (survives full-sync cleanup). -/
def note7a : Note :=
  { uuid := "na", bookUuid := "bx", body := "t", addedOn := 1, editedOn := 1
    public := false, usn := 0, dirty := true, deleted := false }

/-- Synced-then-orphaned local note: clean with usn 5 (expunged by cleanup). -/
def note7b : Note :=
  { uuid := "nb", bookUuid := "bx", body := "t", addedOn := 1, editedOn := 1
    public := false, usn := 5, dirty := false, deleted := false }

/-- Store for the full-sync cleanup witness. -/
def db7 : DB := { books := [], notes := [note7a, note7b], lastSyncAt := 0, lastMaxUSN := 3 }

/-- Environment whose full-sync pull yields the empty list `slC8e`. -/
def env7 : Env :=
  { sessionKey := "s", hasCipherKey := true, isFullSync := true
    decrypt := decryptId
    server := { serverUnused with
                getSyncState := Except.ok { maxUSN := 0, fullSyncBefore := 0, currentTime := 9 }
                getSyncFragment := serverC8e }
    migrateRun := fun d => (d, none), fuel := 2 }

/-- Store after the full sync of `env7` over `db7`: the orphan `note7b` was
expunged, the brand-new `note7a` survived, and the sync state was saved. -/
def db7' : DB := { books := [], notes := [note7a], lastSyncAt := 7, lastMaxUSN := 0 }

/-- Claim C1: every local-store mutation of the pull phase, push phase and
optional follow-up pull happens inside the single transaction opened by
newRun; if any step of those phases errors, the command surfaces the error
and the committed store is exactly its state at transaction begin (the
post-migration store `db1`; the remote migration sequence runs in its own
transactions before the sync transaction opens). -/
theorem newRun_atomic (env : Env) (db db1 : DB)
    (hLogin : (env.sessionKey == "" || !env.hasCipherKey) = false)
    (hMig : env.migrateRun db = (db1, none)) :
    (∀ e, (newRun env db).2.2 = some e → (newRun env db).1 = db1)
    ∧ (∀ e, newRunTx env db1 = Except.error e → newRun env db = (db1, [], some e)) := by
  have hrun : newRun env db = (match newRunTx env db1 with
      | Except.error e => (db1, [], some e)
      | Except.ok (txFinal, tr) => (txFinal, tr, none)) := by
    simp [newRun, hLogin, hMig]
  constructor
  · intro e he
    rw [hrun] at he ⊢
    cases h : newRunTx env db1 with
    | error e2 => rfl
    | ok p =>
      rw [h] at he
      cases p with
      | mk a b => simp at he
  · intro e he
    rw [hrun, he]

/-- Witness for newRun_atomic: a run whose first server call fails leaves
the (here unmigrated) store untouched and surfaces the error. -/
theorem newRun_atomic_witness :
    (envW.sessionKey == "" || !envW.hasCipherKey) = false
    ∧ envW.migrateRun dbW = (dbW, none)
    ∧ newRun envW dbW = (dbW, [], some "boom") :=
  ⟨rfl, rfl, (newRun_atomic envW dbW dbW rfl rfl).2 "boom" rfl⟩

/-- Claim C2: the pull decision is full sync when the operator passed the
full flag or last_sync_at < SyncState.FullSyncBefore; otherwise incremental
sync after USN = last_max_usn when last_max_usn differs from
SyncState.MaxUSN; otherwise no pull and last_sync_at := SyncState.CurrentTime. -/
theorem pullPhase_decision (env : Env) (st : SyncState) (tx : DB) :
    ((env.isFullSync = true ∨ getLastSyncAt tx < st.fullSyncBefore) →
      pullPhase env st tx = (match fullSync env tx with
        | Except.error e => Except.error e
        | Except.ok d => Except.ok (d, [SyncEvent.pullFull])))
    ∧ ((¬(env.isFullSync = true ∨ getLastSyncAt tx < st.fullSyncBefore)) →
        getLastMaxUSN tx ≠ st.maxUSN →
        pullPhase env st tx = (match stepSync env tx (getLastMaxUSN tx) with
          | Except.error e => Except.error e
          | Except.ok d => Except.ok (d, [SyncEvent.pullStep (getLastMaxUSN tx)])))
    ∧ ((¬(env.isFullSync = true ∨ getLastSyncAt tx < st.fullSyncBefore)) →
        getLastMaxUSN tx = st.maxUSN →
        pullPhase env st tx = Except.ok (updateLastSyncAt tx st.currentTime, [])) := by
  refine ⟨fun h => ?_, fun h1 h2 => ?_, fun h1 h2 => ?_⟩
  · unfold pullPhase; rw [if_pos h]
  · unfold pullPhase; rw [if_neg h1, if_pos h2]
  · unfold pullPhase; rw [if_neg h1, if_neg (not_not.mpr h2)]

/-- Witness for pullPhase_decision: a client already at the server's MaxUSN
with a recent last_sync_at skips the pull and refreshes last_sync_at. -/
theorem pullPhase_decision_witness :
    (¬(envW.isFullSync = true ∨ getLastSyncAt txC2 < stC2.fullSyncBefore))
    ∧ getLastMaxUSN txC2 = stC2.maxUSN
    ∧ pullPhase envW stC2 txC2 = Except.ok (updateLastSyncAt txC2 stC2.currentTime, []) :=
  ⟨by decide, by decide, (pullPhase_decision envW stC2 txC2).2.2 (by decide) (by decide)⟩

/-- Claim C10: in the ordinary note-merge path (local note present and not
deleted, owning book not deleted) the merge overwrites only usn, book_uuid,
body, edited_on, deleted and public; dirty, added_on and uuid are untouched,
so a locally-dirty note stays dirty. -/
theorem mergeNote_frame (db : DB) (s : SyncFragNote) (l : Note) (bk : Book)
    (hfind : findBook db l.bookUuid = some bk)
    (hbk : bk.deleted = false) (hl : l.deleted = false) :
    mergeNote db s l = Except.ok { db with notes := db.notes.map (fun m =>
      if m.uuid == s.uuid then overwriteFromServer s m else m) }
    ∧ (∀ m : Note, (overwriteFromServer s m).dirty = m.dirty)
    ∧ (∀ m : Note, (overwriteFromServer s m).addedOn = m.addedOn)
    ∧ (∀ m : Note, (overwriteFromServer s m).uuid = m.uuid)
    ∧ (∀ m : Note, m.dirty = true → (overwriteFromServer s m).dirty = true) := by
  refine ⟨?_, fun m => rfl, fun m => rfl, fun m => rfl, fun m hm => hm⟩
  unfold mergeNote; rw [hfind]; simp [hbk, hl]

/-- Witness for mergeNote_frame at the concrete store `dbC5`. -/
theorem mergeNote_frame_witness :
    findBook dbC5 localC5.bookUuid = some bookC5
    ∧ bookC5.deleted = false
    ∧ localC5.deleted = false
    ∧ mergeNote dbC5 serverC5 localC5 = Except.ok { dbC5 with notes := dbC5.notes.map (fun m =>
        if m.uuid == serverC5.uuid then overwriteFromServer serverC5 m else m) } :=
  ⟨rfl, rfl, rfl, (mergeNote_frame dbC5 serverC5 localC5 bookC5 rfl rfl rfl).1⟩

/-- Claim C6: applying a server book deletion locally: absent book is a
noop; dirty book is a noop; a book with a dirty note is kept present and
only its dirty column is set (deleted is untouched, so it remains false
whenever it was false); otherwise the book's notes are deleted and then the
book itself. -/
theorem syncDeleteBook_cases (db : DB) (u : String) :
    (findBook db u = none → syncDeleteBook db u = Except.ok db)
    ∧ (∀ bk, findBook db u = some bk → bk.dirty = true → syncDeleteBook db u = Except.ok db)
    ∧ (∀ bk, findBook db u = some bk → bk.dirty = false → checkNotesPristine db u = false →
        syncDeleteBook db u = Except.ok { db with books := db.books.map (fun r =>
          if r.uuid == u then { r with dirty := true } else r) }
        ∧ (∀ r ∈ db.books, ({ r with dirty := true } : Book).deleted = r.deleted
            ∧ (r.uuid = u → ({ r with dirty := true } : Book) ∈ db.books.map (fun r2 =>
                if r2.uuid == u then { r2 with dirty := true } else r2))))
    ∧ (∀ bk, findBook db u = some bk → bk.dirty = false → checkNotesPristine db u = true →
        syncDeleteBook db u = Except.ok { db with
          notes := db.notes.filter (fun m => !(m.bookUuid == u))
          books := db.books.filter (fun r => !(r.uuid == u)) }) := by
  refine ⟨fun h => ?_, fun bk h hd => ?_, fun bk h hd hp => ⟨?_, ?_⟩, fun bk h hd hp => ?_⟩
  · unfold syncDeleteBook; rw [h]
  · unfold syncDeleteBook; rw [h]; simp [hd]
  · unfold syncDeleteBook; rw [h]; simp [hd, hp]
  · intro r hr
    refine ⟨rfl, fun hu => ?_⟩
    have hf : (fun r2 : Book => if r2.uuid == u then { r2 with dirty := true } else r2) r
        = { r with dirty := true } := by simp [hu]
    have hm := List.mem_map_of_mem
      (fun r2 : Book => if r2.uuid == u then { r2 with dirty := true } else r2) hr
    rw [hf] at hm
    exact hm
  · unfold syncDeleteBook; rw [h]; simp [hd, hp]

/-- Witness for syncDeleteBook_cases: server deletion of the clean book
`book6` whose note `note6` is dirty marks the book dirty and keeps it. -/
theorem syncDeleteBook_cases_witness :
    findBook db6 "b1" = some book6
    ∧ book6.dirty = false
    ∧ checkNotesPristine db6 "b1" = false
    ∧ syncDeleteBook db6 "b1" = Except.ok { db6 with books := db6.books.map (fun r =>
        if r.uuid == "b1" then { r with dirty := true } else r) } :=
  ⟨rfl, rfl, rfl, ((syncDeleteBook_cases db6 "b1").2.2.1 book6 rfl rfl rfl).1⟩

/-- Claim C9 (amended): a push-phase write of last_max_usn stores exactly
the previous value plus one (so push writes never decrease it); a pull's
saveSyncState stores the pulled list's MaxUSN unconditionally, which is
non-decreasing exactly when that MaxUSN is at least the stored value. -/
theorem lastMaxUSN_writes :
    (∀ (db : DB) (behind : Bool) (resp : Int),
        getLastMaxUSN db ≤ getLastMaxUSN (checkRespUSN db behind resp).1
        ∧ (resp = getLastMaxUSN db + 1 →
            checkRespUSN db behind resp = (updateLastMaxUSN db (getLastMaxUSN db + 1), behind))
        ∧ (resp ≠ getLastMaxUSN db + 1 → checkRespUSN db behind resp = (db, true)))
    ∧ (∀ (db : DB) (t m : Int), getLastMaxUSN (saveSyncState db t m) = m)
    ∧ (∀ (db : DB) (t m : Int), getLastMaxUSN db ≤ m →
        getLastMaxUSN db ≤ getLastMaxUSN (saveSyncState db t m)) := by
  refine ⟨fun db behind resp => ⟨?_, fun h => ?_, fun h => ?_⟩,
          fun db t m => rfl, fun db t m h => h⟩
  · by_cases h : resp = getLastMaxUSN db + 1
    · simp [checkRespUSN, h, updateLastMaxUSN, getLastMaxUSN]
    · simp [checkRespUSN, h]
  · simp [checkRespUSN, h]
  · simp [checkRespUSN, h]

/-- Witness for lastMaxUSN_writes at concrete values around 41. -/
theorem lastMaxUSN_writes_witness :
    getLastMaxUSN db9 ≤ 50
    ∧ getLastMaxUSN db9 ≤ getLastMaxUSN (saveSyncState db9 7 50)
    ∧ checkRespUSN db9 false 42 = (updateLastMaxUSN db9 (getLastMaxUSN db9 + 1), false)
    ∧ checkRespUSN db9 false 44 = (db9, true) :=
  ⟨by decide, lastMaxUSN_writes.2.2 db9 7 50 (by decide),
   (lastMaxUSN_writes.1 db9 false 42).2.1 (by decide),
   (lastMaxUSN_writes.1 db9 false 44).2.2 (by decide)⟩

/-- Counterexample to claim C9 as stated: a committed (error-free) full sync
against a server whose fragment stream is empty stores MaxUSN = 0 and
thereby decreases last_max_usn from 41 to 0. -/
theorem lastMaxUSN_decrease_counterexample :
    (newRun env9 db9).2.2 = none
    ∧ db9.lastMaxUSN = 41
    ∧ (newRun env9 db9).1.lastMaxUSN = 0
    ∧ (newRun env9 db9).1.lastMaxUSN < db9.lastMaxUSN :=
  ⟨rfl, rfl, rfl, by decide⟩

/-- Claim C4 (amended): the collision resolver returns the first label among
"L (2)", "L (3)", ... held by zero books — live or soft-deleted alike — and
the renamed local row is marked dirty; against live labels "X", "X (2)",
"X (3)" it produces "X (4)". -/
theorem resolveLabel_firstFit :
    (∀ (books : List Book) (label : String) (fuel : Nat) (i : Int) (ret : String),
        resolveLabelLoop books label i fuel = some ret →
        ∃ k : Int, i ≤ k ∧ ret = mkSuffixed label k
          ∧ books.countP (fun b => b.label == ret) = 0
          ∧ ∀ j : Int, i ≤ j → j < k →
              books.countP (fun b => b.label == mkSuffixed label j) ≠ 0)
    ∧ resolveLabel booksX "X" = some "X (4)"
    ∧ (∀ (books : List Book) (oldLabel newLabel : String) (r : Book),
        r ∈ books → r.label = oldLabel →
        ({ r with label := newLabel, dirty := true } : Book) ∈ renameDup books oldLabel newLabel) := by
  refine ⟨?_, by decide, ?_⟩
  · intro books label fuel
    induction fuel with
    | zero => intro i ret h; simp [resolveLabelLoop] at h
    | succ f ih =>
      intro i ret h
      simp only [resolveLabelLoop] at h
      by_cases hc : books.countP (fun b => b.label == mkSuffixed label i) = 0
      · rw [if_pos hc] at h
        have hret := Option.some.inj h
        refine ⟨i, le_refl i, hret.symm, ?_, ?_⟩
        · rw [← hret]; exact hc
        · intro j hij hji; exact absurd (lt_of_le_of_lt hij hji) (lt_irrefl i)
      · rw [if_neg hc] at h
        obtain ⟨k, hik, hret, hcnt, hall⟩ := ih (i + 1) ret h
        refine ⟨k, by omega, hret, hcnt, ?_⟩
        intro j hij hjk
        by_cases hji : j = i
        · subst hji; exact hc
        · exact hall j (by omega) hjk
  · intro books oldLabel newLabel r hmem hlab
    have hf : (fun rr : Book =>
        if rr.label == oldLabel then { rr with label := newLabel, dirty := true } else rr) r
        = { r with label := newLabel, dirty := true } := by
      simp [hlab]
    have hm := List.mem_map_of_mem
      (fun rr : Book =>
        if rr.label == oldLabel then { rr with label := newLabel, dirty := true } else rr) hmem
    rw [hf] at hm
    simpa [renameDup] using hm

/-- Witness for resolveLabel_firstFit: the "X (4)" boundary instance and a
renamed-and-dirtied row. -/
theorem resolveLabel_firstFit_witness :
    resolveLabelLoop booksX "X" 2 4 = some "X (4)"
    ∧ (∃ k : Int, 2 ≤ k ∧ "X (4)" = mkSuffixed "X" k
        ∧ booksX.countP (fun b => b.label == "X (4)") = 0
        ∧ ∀ j : Int, 2 ≤ j → j < k →
            booksX.countP (fun b => b.label == mkSuffixed "X" j) ≠ 0)
    ∧ ({ (⟨"u1", "X", 1, false, false⟩ : Book) with label := "X (9)", dirty := true } : Book)
        ∈ renameDup booksX "X" "X (9)" :=
  ⟨by decide, resolveLabel_firstFit.1 booksX "X" 4 2 "X (4)" (by decide),
   resolveLabel_firstFit.2.2 booksX "X" "X (9)" ⟨"u1", "X", 1, false, false⟩ (by decide) rfl⟩

/-- Counterexample to claim C4 as stated: zero live books hold "X (2)" (the
only holder is soft-deleted), yet the resolver skips it and returns
"X (3)" — the count it consults includes deleted books. -/
theorem resolveLabel_counterexample :
    resolveLabel booksC4 "X" = some "X (3)"
    ∧ booksC4.countP (fun b => b.label == "X (2)" && !b.deleted) = 0
    ∧ ("X (3)" : String) ≠ "X (2)" :=
  ⟨by decide, by decide, by decide⟩

/-- Claim C5 (amended): merging a server note against a present local note:
owning book deleted, noop; local note deleted, overwrite usn, book_uuid,
body, edited_on, deleted, public and clear dirty; otherwise overwrite the
same six fields; uuid and added_on are left unchanged in both overwrites. -/
theorem mergeNote_branches (db : DB) (s : SyncFragNote) (l : Note) (bk : Book)
    (hfind : findBook db l.bookUuid = some bk) :
    (bk.deleted = true → mergeNote db s l = Except.ok db)
    ∧ (bk.deleted = false → l.deleted = true →
        mergeNote db s l = Except.ok { db with notes := db.notes.map (fun m =>
          if m.uuid == s.uuid then { overwriteFromServer s m with dirty := false } else m) })
    ∧ (bk.deleted = false → l.deleted = false →
        mergeNote db s l = Except.ok { db with notes := db.notes.map (fun m =>
          if m.uuid == s.uuid then overwriteFromServer s m else m) })
    ∧ (∀ m : Note, (overwriteFromServer s m).uuid = m.uuid
        ∧ (overwriteFromServer s m).addedOn = m.addedOn
        ∧ ({ overwriteFromServer s m with dirty := false } : Note).dirty = false) := by
  refine ⟨fun h => ?_, fun h1 h2 => ?_, fun h1 h2 => ?_, fun m => ⟨rfl, rfl, rfl⟩⟩
  · unfold mergeNote; rw [hfind]; simp [h]
  · unfold mergeNote; rw [hfind]; simp [h1, h2]
  · unfold mergeNote; rw [hfind]; simp [h1, h2]

/-- Witness for mergeNote_branches: server edits supersede the local
deletion of `localC5d` and the row comes back clean. -/
theorem mergeNote_branches_witness :
    findBook dbC5d localC5d.bookUuid = some bookC5
    ∧ bookC5.deleted = false
    ∧ localC5d.deleted = true
    ∧ mergeNote dbC5d serverC5 localC5d = Except.ok { dbC5d with notes := dbC5d.notes.map (fun m =>
        if m.uuid == serverC5.uuid then { overwriteFromServer serverC5 m with dirty := false }
        else m) } :=
  ⟨rfl, rfl, rfl, (mergeNote_branches dbC5d serverC5 localC5d bookC5 rfl).2.1 rfl rfl⟩

/-- Counterexample to claim C5 as stated: in the ordinary overwrite branch
the merged note keeps its local added_on (5); the server's added_on (9) is
not copied, so not all fields are overwritten from the server. -/
theorem mergeNote_addedOn_counterexample :
    mergeNote dbC5 serverC5 localC5 = Except.ok dbC5'
    ∧ dbC5'.notes.map Note.addedOn = [5]
    ∧ serverC5.addedOn = 9
    ∧ (5 : Int) ≠ 9 :=
  ⟨rfl, rfl, rfl, by decide⟩

/-- The drift check never clears an already-raised isBehind flag. -/
theorem checkRespUSN_true_snd (db : DB) (resp : Int) :
    (checkRespUSN db true resp).2 = true := by
  by_cases hr : resp = getLastMaxUSN db + 1 <;> simp [checkRespUSN, hr]

/-- Once the book push is behind, it stays behind for the rest of the item. -/
theorem sendBookItem_behind (env : Env) (db : DB) (b : Book) (db' : DB) (r : Bool)
    (h : sendBookItem env db true b = Except.ok (db', r)) : r = true := by
  unfold sendBookItem at h
  split at h
  · split at h
    · exact (congrArg Prod.snd (Except.ok.inj h)).symm
    · split at h
      · simp at h
      · have h2 := congrArg Prod.snd (Except.ok.inj h)
        rw [checkRespUSN_true_snd] at h2
        exact h2.symm
  · split at h
    · split at h
      · simp at h
      · have h2 := congrArg Prod.snd (Except.ok.inj h)
        rw [checkRespUSN_true_snd] at h2
        exact h2.symm
    · split at h
      · simp at h
      · have h2 := congrArg Prod.snd (Except.ok.inj h)
        rw [checkRespUSN_true_snd] at h2
        exact h2.symm

/-- Once the note push is behind, it stays behind for the rest of the item. -/
theorem sendNoteItem_behind (env : Env) (db : DB) (n : Note) (db' : DB) (r : Bool)
    (h : sendNoteItem env db true n = Except.ok (db', r)) : r = true := by
  unfold sendNoteItem at h
  split at h
  · split at h
    · exact (congrArg Prod.snd (Except.ok.inj h)).symm
    · split at h
      · simp at h
      · have h2 := congrArg Prod.snd (Except.ok.inj h)
        rw [checkRespUSN_true_snd] at h2
        exact h2.symm
  · split at h
    · split at h
      · simp at h
      · have h2 := congrArg Prod.snd (Except.ok.inj h)
        rw [checkRespUSN_true_snd] at h2
        exact h2.symm
    · split at h
      · simp at h
      · have h2 := congrArg Prod.snd (Except.ok.inj h)
        rw [checkRespUSN_true_snd] at h2
        exact h2.symm

/-- The dirty-book scan reports isBehind once any item raised it. -/
theorem sendBooksLoop_behind (env : Env) : ∀ (bs : List Book) (db db' : DB) (r : Bool),
    sendBooksLoop env db true bs = Except.ok (db', r) → r = true := by
  intro bs
  induction bs with
  | nil =>
    intro db db' r h
    simp [sendBooksLoop] at h
    exact h.2
  | cons b rest ih =>
    intro db db' r h
    rw [sendBooksLoop] at h
    cases hi : sendBookItem env db true b with
    | error e => rw [hi] at h; simp at h
    | ok p =>
      rw [hi] at h
      obtain ⟨db1, behind1⟩ := p
      have hb1 : behind1 = true := sendBookItem_behind env db b db1 behind1 hi
      subst hb1
      exact ih db1 db' r h

/-- The dirty-note scan reports isBehind once any item raised it. -/
theorem sendNotesLoop_behind (env : Env) : ∀ (ns : List Note) (db db' : DB) (r : Bool),
    sendNotesLoop env db true ns = Except.ok (db', r) → r = true := by
  intro ns
  induction ns with
  | nil =>
    intro db db' r h
    simp [sendNotesLoop] at h
    exact h.2
  | cons n rest ih =>
    intro db db' r h
    rw [sendNotesLoop] at h
    cases hi : sendNoteItem env db true n with
    | error e => rw [hi] at h; simp at h
    | ok p =>
      rw [hi] at h
      obtain ⟨db1, behind1⟩ := p
      have hb1 : behind1 = true := sendNoteItem_behind env db n db1 behind1 hi
      subst hb1
      exact ih db1 db' r h

/-- Claim C3: after each successful push create/update (or delete) the
drift check advances last_max_usn by exactly one iff the response usn is
last_max_usn + 1, otherwise it leaves last_max_usn unchanged and raises
isBehind; a raised isBehind survives the rest of the scan; and when
sendChanges reports isBehind the orchestrator immediately runs a follow-up
incremental sync after the (possibly advanced) last_max_usn. -/
theorem pushUSN_advancement :
    (∀ (db : DB) (behind : Bool) (resp : Int),
        (resp = getLastMaxUSN db + 1 →
          checkRespUSN db behind resp = (updateLastMaxUSN db (getLastMaxUSN db + 1), behind))
        ∧ (resp ≠ getLastMaxUSN db + 1 → checkRespUSN db behind resp = (db, true)))
    ∧ (∀ (env : Env) (bs : List Book) (db db' : DB) (r : Bool),
        sendBooksLoop env db true bs = Except.ok (db', r) → r = true)
    ∧ (∀ (env : Env) (ns : List Note) (db db' : DB) (r : Bool),
        sendNotesLoop env db true ns = Except.ok (db', r) → r = true)
    ∧ (∀ (env : Env) (db db1 : DB) (st : SyncState) (tx1 : DB) (tr1 : List SyncEvent) (tx2 : DB),
        (env.sessionKey == "" || !env.hasCipherKey) = false →
        env.migrateRun db = (db1, none) →
        env.server.getSyncState = Except.ok st →
        pullPhase env st db1 = Except.ok (tx1, tr1) →
        sendChanges env tx1 = Except.ok (tx2, true) →
        newRun env db = (match stepSync env tx2 (getLastMaxUSN tx2) with
          | Except.error e => (db1, [], some e)
          | Except.ok tx3 =>
              (tx3, tr1 ++ [SyncEvent.push, SyncEvent.pullStep (getLastMaxUSN tx2)], none))) := by
  refine ⟨fun db behind resp => ⟨fun h => ?_, fun h => ?_⟩,
          fun env bs db db' r h => sendBooksLoop_behind env bs db db' r h,
          fun env ns db db' r h => sendNotesLoop_behind env ns db db' r h,
          ?_⟩
  · simp [checkRespUSN, h]
  · simp [checkRespUSN, h]
  · intro env db db1 st tx1 tr1 tx2 hLogin hMig hState hPull hSend
    cases hs : stepSync env tx2 (getLastMaxUSN tx2) with
    | error e =>
      have htx : newRunTx env db1 = Except.error e := by
        simp [newRunTx, hState, hPull, hSend, hs]
      simp [newRun, hLogin, hMig, htx, hs]
    | ok tx3 =>
      have htx : newRunTx env db1
          = Except.ok (tx3, tr1 ++ [SyncEvent.push, SyncEvent.pullStep (getLastMaxUSN tx2)]) := by
        simp [newRunTx, hState, hPull, hSend, hs]
      simp [newRun, hLogin, hMig, htx, hs]

/-- Witness for pushUSN_advancement: scenario S2 — the update response
carries USN 44 while last_max_usn is 41, so the push reports isBehind and
the orchestrator issues the follow-up incremental sync. -/
theorem pushUSN_advancement_witness :
    sendChanges env3 (updateLastSyncAt db3 100) = Except.ok (tx2C3, true)
    ∧ checkRespUSN tx2C3 false 44 = (tx2C3, true)
    ∧ newRun env3 db3 = (match stepSync env3 tx2C3 (getLastMaxUSN tx2C3) with
        | Except.error e => (db3, [], some e)
        | Except.ok tx3 =>
            (tx3, [SyncEvent.push, SyncEvent.pullStep (getLastMaxUSN tx2C3)], none)) :=
  ⟨rfl,
   (pushUSN_advancement.1 tx2C3 false 44).2 (by decide),
   pushUSN_advancement.2.2.2 env3 db3 db3
     { maxUSN := 41, fullSyncBefore := 0, currentTime := 100 }
     (updateLastSyncAt db3 100) [] tx2C3 rfl rfl rfl rfl rfl⟩

/-- Claim C8 (amended): every terminating run of the paging loop forms a
chain — each request is issued at the previous fragment's FragMaxUSN and the
loop stops exactly at the first fragment reporting FragMaxUSN = 0; a first
response with FragMaxUSN = 0 stops the loop immediately, and the resulting
sync list has MaxUSN = 0 and contains exactly that fragment's items — in
particular it is empty when the fragment carries no items. -/
theorem getSyncFragments_chain :
    (∀ (server : Int → Except String SyncFragment) (fuel : Nat) (afterUSN : Int)
        (buf : List SyncFragment),
        getSyncFragmentsLoop server fuel afterUSN = some (Except.ok buf) →
        fragChain server afterUSN buf)
    ∧ (∀ (server : Int → Except String SyncFragment) (fuel : Nat) (afterUSN : Int)
        (f : SyncFragment),
        server afterUSN = Except.ok f → f.fragMaxUSN = 0 →
        getSyncFragmentsLoop server (fuel + 1) afterUSN = some (Except.ok [f]))
    ∧ (∀ (decrypt : String → Except String String) (f : SyncFragment) (sl : SyncList),
        f.fragMaxUSN = 0 →
        processFragments decrypt [f] = Except.ok sl →
        sl.maxUSN = 0
        ∧ (f.notes = [] → f.books = [] → f.expungedNotes = [] → f.expungedBooks = [] →
            sl.getLength = 0)) := by
  refine ⟨?_, ?_, ?_⟩
  · intro server fuel
    induction fuel with
    | zero => intro afterUSN buf h; simp [getSyncFragmentsLoop] at h
    | succ fl ih =>
      intro afterUSN buf h
      rw [getSyncFragmentsLoop] at h
      split at h
      · simp at h
      · rename_i frag heq
        split at h
        · rename_i h0
          simp only [Option.some.injEq, Except.ok.injEq] at h
          subst h
          exact ⟨heq, h0⟩
        · rename_i h0
          split at h
          · simp at h
          · simp at h
          · rename_i rest hr
            simp only [Option.some.injEq, Except.ok.injEq] at h
            subst h
            have hchain := ih frag.fragMaxUSN rest hr
            cases rest with
            | nil => exact absurd hchain (by simp [fragChain])
            | cons g rs => exact ⟨heq, h0, hchain⟩
  · intro server fuel afterUSN f hs h0
    simp [getSyncFragmentsLoop, hs, h0]
  · intro decrypt f sl h0 hproc
    unfold processFragments at hproc
    rw [processFragmentsLoop] at hproc
    split at hproc
    · simp at hproc
    · rename_i acc1 hp
      rw [processFragmentsLoop] at hproc
      simp only [Except.ok.injEq] at hproc
      subst hproc
      unfold processOneFragment at hp
      split at hp
      · simp at hp
      · rename_i notes1 hn
        split at hp
        · simp at hp
        · rename_i books1 hb
          simp only [Except.ok.injEq] at hp
          subst hp
          constructor
          · simp [emptySyncList, h0]
          · intro hfn hfb hfen hfeb
            rw [hfn] at hn
            rw [hfb] at hb
            simp only [processFragNotes, emptySyncList, Except.ok.injEq] at hn
            simp only [processFragBooks, emptySyncList, Except.ok.injEq] at hb
            subst hn
            subst hb
            simp [SyncList.getLength, emptySyncList, hfen, hfeb]

/-- Witness for getSyncFragments_chain: the empty first fragment terminates
the loop at once and aggregates to the empty sync list. -/
theorem getSyncFragments_chain_witness :
    fragChain serverC8e 0 [fragC8e]
    ∧ getSyncFragmentsLoop serverC8e 1 0 = some (Except.ok [fragC8e])
    ∧ slC8e.getLength = 0 :=
  ⟨getSyncFragments_chain.1 serverC8e 1 0 [fragC8e] rfl,
   getSyncFragments_chain.2.1 serverC8e 0 0 fragC8e rfl rfl,
   (getSyncFragments_chain.2.2 decryptId fragC8e slC8e rfl rfl).2 rfl rfl rfl rfl⟩

/-- Counterexample to claim C8 as stated: a first response with
FragMaxUSN = 0 but one expunged-note uuid terminates the loop immediately,
yet the resulting sync list is non-empty (its length is 1, with MaxUSN 0). -/
theorem getSyncFragments_nonempty_counterexample :
    getSyncFragmentsLoop serverC8 1 0 = some (Except.ok [fragC8])
    ∧ processFragments decryptId [fragC8] = Except.ok slC8
    ∧ slC8.maxUSN = 0
    ∧ slC8.getLength = 1
    ∧ slC8.getLength ≠ 0 :=
  ⟨rfl, rfl, rfl, rfl, by decide⟩

/-- A note listed live in the sync list is found by checkNoteInList. -/
theorem checkNoteInList_of_mem {list : SyncList} {n : SyncFragNote}
    (h : n ∈ list.notes) : checkNoteInList n.uuid list = true := by
  unfold checkNoteInList
  rw [Bool.or_eq_true]
  left
  rw [List.any_eq_true]
  exact ⟨n, h, by simp⟩

/-- A book listed live in the sync list is found by checkBookInList. -/
theorem checkBookInList_of_mem {list : SyncList} {b : SyncFragBook}
    (h : b ∈ list.books) : checkBookInList b.uuid list = true := by
  unfold checkBookInList
  rw [Bool.or_eq_true]
  left
  rw [List.any_eq_true]
  exact ⟨b, h, by simp⟩

/-- The keep-condition of cleanLocalNotes, read as a proposition. -/
theorem keepNote_iff (list : SyncList) (n : Note) :
    (!(!(checkNoteInList n.uuid list) && (!n.dirty || !(n.usn == 0)))) = true
    ↔ (checkNoteInList n.uuid list = true ∨ (n.dirty = true ∧ n.usn = 0)) := by
  cases hc : checkNoteInList n.uuid list <;> cases hd : n.dirty <;>
    by_cases hu : n.usn = 0 <;> simp [hc, hd, hu]

/-- The keep-condition of cleanLocalBooks, read as a proposition. -/
theorem keepBook_iff (list : SyncList) (b : Book) :
    (!(!(checkBookInList b.uuid list) && (!b.dirty || !(b.usn == 0)))) = true
    ↔ (checkBookInList b.uuid list = true ∨ (b.dirty = true ∧ b.usn = 0)) := by
  cases hc : checkBookInList b.uuid list <;> cases hd : b.dirty <;>
    by_cases hu : b.usn = 0 <;> simp [hc, hd, hu]

/-- The cleanup pass leaves the store in the acceptable state. -/
theorem goodDB_clean (list : SyncList) (db : DB) :
    goodDB list (cleanLocalBooks (cleanLocalNotes db list) list) := by
  constructor
  · intro n hn
    have hn' : n ∈ (cleanLocalNotes db list).notes := hn
    have h2 := List.mem_filter.mp hn'
    unfold goodNote
    exact (keepNote_iff list n).mp h2.2
  · intro b hb
    have h2 := List.mem_filter.mp hb
    unfold goodBook
    exact (keepBook_iff list b).mp h2.2

/-- Mapping a uuid-preserving overwrite over the note whose uuid is known to
the sync list preserves acceptability of every note. -/
theorem goodNotes_map_overwrite {list : SyncList} {s : SyncFragNote} {db : DB}
    (hs : checkNoteInList s.uuid list = true)
    (hg : ∀ n ∈ db.notes, goodNote list n)
    (f : Note → Note) (hf : ∀ m, (f m).uuid = m.uuid) :
    ∀ m' ∈ db.notes.map (fun m => if m.uuid == s.uuid then f m else m), goodNote list m' := by
  intro m' hm'
  obtain ⟨m, hm, hmeq⟩ := List.mem_map.mp hm'
  by_cases hc : (m.uuid == s.uuid) = true
  · rw [if_pos hc] at hmeq
    subst hmeq
    unfold goodNote
    left
    rw [hf m, (by simpa using hc : m.uuid = s.uuid)]
    exact hs
  · rw [if_neg hc] at hmeq
    subst hmeq
    exact hg m hm

/-- mergeNote preserves acceptability when the incoming note is listed. -/
theorem goodDB_mergeNote {list : SyncList} {db db' : DB} {s : SyncFragNote} {l : Note}
    (hs : checkNoteInList s.uuid list = true)
    (hg : goodDB list db) (h : mergeNote db s l = Except.ok db') : goodDB list db' := by
  unfold mergeNote at h
  split at h
  · simp at h
  · split at h
    · simp only [Except.ok.injEq] at h
      subst h
      exact hg
    · split at h
      · simp only [Except.ok.injEq] at h
        subst h
        exact ⟨goodNotes_map_overwrite hs hg.1 _ (fun m => rfl), hg.2⟩
      · simp only [Except.ok.injEq] at h
        subst h
        exact ⟨goodNotes_map_overwrite hs hg.1 _ (fun m => rfl), hg.2⟩

/-- stepSyncNote preserves acceptability when the incoming note is listed. -/
theorem goodDB_stepSyncNote {list : SyncList} {db db' : DB} {n : SyncFragNote}
    (hn : checkNoteInList n.uuid list = true)
    (hg : goodDB list db) (h : stepSyncNote db n = Except.ok db') : goodDB list db' := by
  unfold stepSyncNote at h
  split at h
  · simp only [Except.ok.injEq] at h
    subst h
    refine ⟨?_, hg.2⟩
    intro m hm
    rcases List.mem_append.mp hm with hmem | hmem
    · exact hg.1 m hmem
    · have hm2 : m = noteFromServer n := by simpa using hmem
      subst hm2
      unfold goodNote
      left
      exact hn
  · exact goodDB_mergeNote hn hg h

/-- fullSyncNote preserves acceptability when the incoming note is listed. -/
theorem goodDB_fullSyncNote {list : SyncList} {db db' : DB} {n : SyncFragNote}
    (hn : checkNoteInList n.uuid list = true)
    (hg : goodDB list db) (h : fullSyncNote db n = Except.ok db') : goodDB list db' := by
  unfold fullSyncNote at h
  split at h
  · simp only [Except.ok.injEq] at h
    subst h
    refine ⟨?_, hg.2⟩
    intro m hm
    rcases List.mem_append.mp hm with hmem | hmem
    · exact hg.1 m hmem
    · have hm2 : m = noteFromServer n := by simpa using hmem
      subst hm2
      unfold goodNote
      left
      exact hn
  · split at h
    · exact goodDB_mergeNote hn hg h
    · simp only [Except.ok.injEq] at h
      subst h
      exact hg

/-- The collision rename keeps every book acceptable: it preserves uuid and
usn and only ever raises dirty. -/
theorem goodBooks_renameDup {list : SyncList} {books : List Book}
    (hg : ∀ r ∈ books, goodBook list r) (old nl : String) :
    ∀ b' ∈ renameDup books old nl, goodBook list b' := by
  intro b' hb'
  obtain ⟨r, hr, hreq⟩ := List.mem_map.mp hb'
  by_cases hc : (r.label == old) = true
  · rw [if_pos hc] at hreq
    subst hreq
    have h2 := hg r hr
    unfold goodBook at h2 ⊢
    rcases h2 with hin | ⟨hd, hu⟩
    · left; exact hin
    · right; exact ⟨rfl, hu⟩
  · rw [if_neg hc] at hreq
    subst hreq
    exact hg r hr

/-- Mapping an update onto the book with a listed uuid preserves
acceptability of every book. -/
theorem goodBooks_map_byUuid {list : SyncList} {books : List Book} {u : String}
    (hu : checkBookInList u list = true)
    (hg : ∀ r ∈ books, goodBook list r)
    (f : Book → Book) (hf : ∀ r, (r.uuid == u) = true → (f r).uuid = u) :
    ∀ b' ∈ books.map (fun r => if r.uuid == u then f r else r), goodBook list b' := by
  intro b' hb'
  obtain ⟨r, hr, hreq⟩ := List.mem_map.mp hb'
  by_cases hc : (r.uuid == u) = true
  · rw [if_pos hc] at hreq
    subst hreq
    unfold goodBook
    left
    rw [hf r hc]
    exact hu
  · rw [if_neg hc] at hreq
    subst hreq
    exact hg r hr

/-- The label-collision rename phase preserves acceptability. -/
theorem goodDB_resolveDup {list : SyncList} {db db1 : DB} {b : SyncFragBook}
    (hg : goodDB list db) (h : resolveDup db b = Except.ok db1) : goodDB list db1 := by
  unfold resolveDup at h
  by_cases hc : db.books.countP (fun r => r.label == b.label) > 0
  · rw [if_pos hc] at h
    split at h
    · simp at h
    · rename_i nl hres
      simp only [Except.ok.injEq] at h
      subst h
      exact ⟨hg.1, goodBooks_renameDup hg.2 b.label nl⟩
  · rw [if_neg hc] at h
    simp only [Except.ok.injEq] at h
    subst h
    exact hg

/-- mergeBook preserves acceptability when the incoming book is listed. -/
theorem goodDB_mergeBook {list : SyncList} {db db' : DB} {b : SyncFragBook} {mode : Nat}
    (hb : checkBookInList b.uuid list = true)
    (hg : goodDB list db) (h : mergeBook db b mode = Except.ok db') : goodDB list db' := by
  unfold mergeBook at h
  split at h
  · simp at h
  · rename_i db1 hdb1
    have hgood1 : goodDB list db1 := goodDB_resolveDup hg hdb1
    split at h
    · simp only [Except.ok.injEq] at h
      subst h
      refine ⟨hgood1.1, ?_⟩
      intro r hr
      rcases List.mem_append.mp hr with hmem | hmem
      · exact hgood1.2 r hmem
      · have hr2 : r = { uuid := b.uuid, label := b.label, usn := b.usn
                         dirty := false, deleted := false } := by simpa using hmem
        subst hr2
        unfold goodBook
        left
        exact hb
    · split at h
      · simp only [Except.ok.injEq] at h
        subst h
        exact ⟨hgood1.1, goodBooks_map_byUuid hb hgood1.2 _ (fun r _ => rfl)⟩
      · simp only [Except.ok.injEq] at h
        subst h
        exact hgood1

/-- stepSyncBook preserves acceptability when the incoming book is listed. -/
theorem goodDB_stepSyncBook {list : SyncList} {db db' : DB} {b : SyncFragBook}
    (hb : checkBookInList b.uuid list = true)
    (hg : goodDB list db) (h : stepSyncBook db b = Except.ok db') : goodDB list db' := by
  unfold stepSyncBook at h
  split at h
  · exact goodDB_mergeBook hb hg h
  · exact goodDB_mergeBook hb hg h

/-- fullSyncBook preserves acceptability when the incoming book is listed. -/
theorem goodDB_fullSyncBook {list : SyncList} {db db' : DB} {b : SyncFragBook}
    (hb : checkBookInList b.uuid list = true)
    (hg : goodDB list db) (h : fullSyncBook db b = Except.ok db') : goodDB list db' := by
  unfold fullSyncBook at h
  split at h
  · exact goodDB_mergeBook hb hg h
  · split at h
    · exact goodDB_mergeBook hb hg h
    · simp only [Except.ok.injEq] at h
      subst h
      exact hg

/-- syncDeleteNote preserves acceptability (it only deletes or keeps rows). -/
theorem goodDB_syncDeleteNote {list : SyncList} {db db' : DB} {u : String}
    (hg : goodDB list db) (h : syncDeleteNote db u = Except.ok db') : goodDB list db' := by
  unfold syncDeleteNote at h
  split at h
  · simp only [Except.ok.injEq] at h; subst h; exact hg
  · split at h
    · simp only [Except.ok.injEq] at h; subst h; exact hg
    · simp only [Except.ok.injEq] at h
      subst h
      exact ⟨fun m hm => hg.1 m (List.mem_of_mem_filter hm), hg.2⟩

/-- syncDeleteBook preserves acceptability (it deletes rows or raises dirty). -/
theorem goodDB_syncDeleteBook {list : SyncList} {db db' : DB} {u : String}
    (hg : goodDB list db) (h : syncDeleteBook db u = Except.ok db') : goodDB list db' := by
  unfold syncDeleteBook at h
  split at h
  · simp only [Except.ok.injEq] at h; subst h; exact hg
  · split at h
    · simp only [Except.ok.injEq] at h; subst h; exact hg
    · split at h
      · simp only [Except.ok.injEq] at h
        subst h
        refine ⟨hg.1, ?_⟩
        intro b' hb'
        obtain ⟨r, hr, hreq⟩ := List.mem_map.mp hb'
        by_cases hc : (r.uuid == u) = true
        · rw [if_pos hc] at hreq
          subst hreq
          have h2 := hg.2 r hr
          unfold goodBook at h2 ⊢
          rcases h2 with hin | ⟨hd, hu2⟩
          · left; exact hin
          · right; exact ⟨rfl, hu2⟩
        · rw [if_neg hc] at hreq
          subst hreq
          exact hg.2 r hr
      · simp only [Except.ok.injEq] at h
        subst h
        exact ⟨fun m hm => hg.1 m (List.mem_of_mem_filter hm),
               fun r hr => hg.2 r (List.mem_of_mem_filter hr)⟩

/-- The full-sync note pass preserves acceptability. -/
theorem goodDB_mergeNotesFull (list : SyncList) :
    ∀ (ns : List SyncFragNote) (db db' : DB),
    (∀ n ∈ ns, checkNoteInList n.uuid list = true) →
    goodDB list db → mergeNotesFull db ns = Except.ok db' → goodDB list db' := by
  intro ns
  induction ns with
  | nil =>
    intro db db' _ hg h
    simp only [mergeNotesFull, Except.ok.injEq] at h
    subst h
    exact hg
  | cons n rest ih =>
    intro db db' hns hg h
    rw [mergeNotesFull] at h
    split at h
    · simp at h
    · rename_i db1 h1
      exact ih db1 db' (fun m hm => hns m (List.mem_cons_of_mem n hm))
        (goodDB_fullSyncNote (hns n (List.mem_cons_self n rest)) hg h1) h

/-- The full-sync book pass preserves acceptability. -/
theorem goodDB_mergeBooksFull (list : SyncList) :
    ∀ (bs : List SyncFragBook) (db db' : DB),
    (∀ b ∈ bs, checkBookInList b.uuid list = true) →
    goodDB list db → mergeBooksFull db bs = Except.ok db' → goodDB list db' := by
  intro bs
  induction bs with
  | nil =>
    intro db db' _ hg h
    simp only [mergeBooksFull, Except.ok.injEq] at h
    subst h
    exact hg
  | cons b rest ih =>
    intro db db' hbs hg h
    rw [mergeBooksFull] at h
    split at h
    · simp at h
    · rename_i db1 h1
      exact ih db1 db' (fun r hr => hbs r (List.mem_cons_of_mem b hr))
        (goodDB_fullSyncBook (hbs b (List.mem_cons_self b rest)) hg h1) h

/-- The expunged-note pass preserves acceptability. -/
theorem goodDB_deleteNotesLoop (list : SyncList) :
    ∀ (us : List String) (db db' : DB),
    goodDB list db → deleteNotesLoop db us = Except.ok db' → goodDB list db' := by
  intro us
  induction us with
  | nil =>
    intro db db' hg h
    simp only [deleteNotesLoop, Except.ok.injEq] at h
    subst h
    exact hg
  | cons u rest ih =>
    intro db db' hg h
    rw [deleteNotesLoop] at h
    split at h
    · simp at h
    · rename_i db1 h1
      exact ih db1 db' (goodDB_syncDeleteNote hg h1) h

/-- The expunged-book pass preserves acceptability. -/
theorem goodDB_deleteBooksLoop (list : SyncList) :
    ∀ (us : List String) (db db' : DB),
    goodDB list db → deleteBooksLoop db us = Except.ok db' → goodDB list db' := by
  intro us
  induction us with
  | nil =>
    intro db db' hg h
    simp only [deleteBooksLoop, Except.ok.injEq] at h
    subst h
    exact hg
  | cons u rest ih =>
    intro db db' hg h
    rw [deleteBooksLoop] at h
    split at h
    · simp at h
    · rename_i db1 h1
      exact ih db1 db' (goodDB_syncDeleteBook hg h1) h

/-- Claim C7: the full-sync cleanup keeps a local note or book iff it is in
the pulled sync list (live or expunged) or is a brand-new local row (dirty
with usn 0); consequently, after a successful full-sync pull every local
note and book is either present in the pulled sync list or dirty with usn 0. -/
theorem fullSync_orphan_invariant (list : SyncList) (db : DB) :
    (∀ n : Note, n ∈ (cleanLocalNotes db list).notes ↔
        n ∈ db.notes ∧ (checkNoteInList n.uuid list = true ∨ (n.dirty = true ∧ n.usn = 0)))
    ∧ (∀ b : Book, b ∈ (cleanLocalBooks db list).books ↔
        b ∈ db.books ∧ (checkBookInList b.uuid list = true ∨ (b.dirty = true ∧ b.usn = 0)))
    ∧ (∀ (env : Env) (db' : DB), getSyncList env 0 = Except.ok list →
        fullSync env db = Except.ok db' →
        (∀ n ∈ db'.notes, checkNoteInList n.uuid list = true ∨ (n.dirty = true ∧ n.usn = 0))
        ∧ (∀ b ∈ db'.books, checkBookInList b.uuid list = true ∨ (b.dirty = true ∧ b.usn = 0))) := by
  refine ⟨?_, ?_, ?_⟩
  · intro n
    constructor
    · intro hn
      have h2 := List.mem_filter.mp hn
      exact ⟨h2.1, (keepNote_iff list n).mp h2.2⟩
    · rintro ⟨hmem, hcond⟩
      exact List.mem_filter.mpr ⟨hmem, (keepNote_iff list n).mpr hcond⟩
  · intro b
    constructor
    · intro hb
      have h2 := List.mem_filter.mp hb
      exact ⟨h2.1, (keepBook_iff list b).mp h2.2⟩
    · rintro ⟨hmem, hcond⟩
      exact List.mem_filter.mpr ⟨hmem, (keepBook_iff list b).mpr hcond⟩
  · intro env db' hlist h
    unfold fullSync at h
    split at h
    · simp at h
    · rename_i list2 hlist2
      rw [hlist] at hlist2
      injection hlist2 with hl2
      subst hl2
      split at h
      · simp at h
      · rename_i tx3 h3
        split at h
        · simp at h
        · rename_i tx4 h4
          split at h
          · simp at h
          · rename_i tx5 h5
            split at h
            · simp at h
            · rename_i tx6 h6
              simp only [Except.ok.injEq] at h
              subst h
              have hg3 := goodDB_mergeNotesFull list list.notes _ tx3
                (fun n hn => checkNoteInList_of_mem hn) (goodDB_clean list db) h3
              have hg4 := goodDB_mergeBooksFull list list.books tx3 tx4
                (fun b hb => checkBookInList_of_mem hb) hg3 h4
              have hg5 := goodDB_deleteNotesLoop list list.expungedNotes tx4 tx5 hg4 h5
              have hg6 := goodDB_deleteBooksLoop list list.expungedBooks tx5 tx6 hg5 h6
              exact ⟨fun n hn => hg6.1 n hn, fun b hb => hg6.2 b hb⟩

/-- Witness for fullSync_orphan_invariant: a full sync over `db7` against an
empty server stream expunges the orphan `note7b`, keeps the brand-new
`note7a`, and the resulting store satisfies the invariant. -/
theorem fullSync_orphan_invariant_witness :
    getSyncList env7 0 = Except.ok slC8e
    ∧ fullSync env7 db7 = Except.ok db7'
    ∧ (∀ n ∈ db7'.notes, checkNoteInList n.uuid slC8e = true ∨ (n.dirty = true ∧ n.usn = 0))
    ∧ (∀ b ∈ db7'.books, checkBookInList b.uuid slC8e = true ∨ (b.dirty = true ∧ b.usn = 0)) :=
  ⟨rfl, rfl,
   ((fullSync_orphan_invariant slC8e db7).2.2 env7 db7' rfl rfl).1,
   ((fullSync_orphan_invariant slC8e db7).2.2 env7 db7' rfl rfl).2⟩
